import Mathlib

/-!
Verification of the job-application automation service.

Shallow embedding of the core control flow of the repository:
retry policy (`utils/helpers.js`), proxy rotation (`proxy.service.js`),
browser session pool (`browser.service.js`), the multi-step application
form loops of the three platform adapters (`platforms/linkedin.js` and its
Indeed/Glassdoor siblings), database persistence of scraped jobs
(`scrapers/base.scraper.js` / `scraping.service.js`), batch application
(`application.service.js`) and the platform probe (`testPlatform`).

JavaScript async control flow is modelled by pure state passing; fallible
operations return `Except`; the external world (pages, database, network)
is supplied as explicit oracle functions so each code path is executable.
-/

namespace JobApi

/-! ## Retry policy: `withRetry` from `src/utils/helpers.js`

The JS loop is `for (attempt = 0; attempt <= retries; attempt++) { try
{ return await fn() } catch (e) { lastError = e; ... } }; throw lastError`.
The operation is modelled as a function from the attempt index to the
attempt's outcome.  `withRetryRun fn remaining attempt` runs the loop from
`attempt` with `remaining` further attempts allowed after the current one. -/

def withRetryRun (fn : Nat → Except E A) : Nat → Nat → Except E A
  | 0, attempt => fn attempt
  | remaining + 1, attempt =>
    match fn attempt with
    | .ok v => .ok v
    | .error _ => withRetryRun fn remaining (attempt + 1)

/-- `withRetry fn retries`: outcome of the JS `withRetry` with the given
`retries` option, where `fn k` is what the wrapped operation does on its
k-th invocation (0-based). -/
def withRetry (fn : Nat → Except E A) (retries : Nat) : Except E A :=
  withRetryRun fn retries 0

/-- Number of times the wrapped operation is invoked by `withRetry`. -/
def withRetryAttemptsRun (fn : Nat → Except E A) : Nat → Nat → Nat
  | 0, _ => 1
  | remaining + 1, attempt =>
    match fn attempt with
    | .ok _ => 1
    | .error _ => 1 + withRetryAttemptsRun fn remaining (attempt + 1)

def withRetryAttempts (fn : Nat → Except E A) (retries : Nat) : Nat :=
  withRetryAttemptsRun fn retries 0

/-! ## Proxy selector: `getNextProxy` from `src/services/proxy.service.js` -/

structure ProxyConfig where
  use : Bool
  list : List String
deriving Repr, DecidableEq

/-- The module-level mutable cursor `currentProxyIndex`. -/
structure ProxyState where
  currentProxyIndex : Nat
deriving Repr, DecidableEq

/-- `getNextProxy`: returns `null` when proxies are disabled or the list is
empty; otherwise returns `list[currentProxyIndex]` and advances the cursor
modulo the list length. -/
def getNextProxy (cfg : ProxyConfig) (s : ProxyState) : Option String × ProxyState :=
  if cfg.use = false ∨ cfg.list.length = 0 then
    (none, s)
  else
    let proxy := cfg.list.getD s.currentProxyIndex ""
    (some proxy, ⟨(s.currentProxyIndex + 1) % cfg.list.length⟩)

/-- Thread `n` consecutive `getNextProxy` calls through the shared cursor,
collecting the returned values in call order. -/
def proxyCalls (cfg : ProxyConfig) (s : ProxyState) : Nat → List (Option String) × ProxyState
  | 0 => ([], s)
  | n + 1 =>
    let (p, s') := getNextProxy cfg s
    let (ps, s'') := proxyCalls cfg s' n
    (p :: ps, s'')

/-! ### Lemmas about `withRetry` -/

lemma withRetryAttemptsRun_le (fn : Nat → Except E A) :
    ∀ remaining attempt, withRetryAttemptsRun fn remaining attempt ≤ remaining + 1 := by
  intro remaining
  induction remaining with
  | zero => intro attempt; simp [withRetryAttemptsRun]
  | succ n ih =>
    intro attempt
    cases hfn : fn attempt with
    | ok v =>
      simp only [withRetryAttemptsRun, hfn]
      omega
    | error e =>
      have := ih (attempt + 1)
      simp only [withRetryAttemptsRun, hfn]
      omega

lemma withRetryRun_ok (fn : Nat → Except E A) :
    ∀ remaining attempt j v, attempt ≤ j → j ≤ attempt + remaining →
      (∀ k, attempt ≤ k → k < j → ∃ e, fn k = .error e) → fn j = .ok v →
      withRetryRun fn remaining attempt = .ok v := by
  intro remaining
  induction remaining with
  | zero =>
    intro attempt j v h1 h2 _ hok
    have : j = attempt := by omega
    subst this
    simpa [withRetryRun] using hok
  | succ n ih =>
    intro attempt j v h1 h2 hfail hok
    unfold withRetryRun
    rcases Nat.eq_or_lt_of_le h1 with heq | hlt
    · subst heq
      rw [hok]
    · obtain ⟨e, he⟩ := hfail attempt (le_refl _) hlt
      rw [he]
      exact ih (attempt + 1) j v hlt (by omega)
        (fun k hk1 hk2 => hfail k (by omega) hk2) hok

lemma withRetryRun_error (fn : Nat → Except E A) (err : Nat → E) :
    ∀ remaining attempt,
      (∀ k, attempt ≤ k → k ≤ attempt + remaining → fn k = .error (err k)) →
      withRetryRun fn remaining attempt = .error (err (attempt + remaining)) := by
  intro remaining
  induction remaining with
  | zero =>
    intro attempt h
    simpa [withRetryRun] using h attempt (le_refl _) (by omega)
  | succ n ih =>
    intro attempt h
    unfold withRetryRun
    rw [h attempt (le_refl _) (by omega)]
    have hrec := ih (attempt + 1) (fun k hk1 hk2 => h k (by omega) (by omega))
    have harg : attempt + 1 + n = attempt + (n + 1) := by omega
    rw [harg] at hrec
    exact hrec

/-- **C5.** For every operation and `retries` option, `withRetry` performs at
most `retries + 1` attempts; if the first successful attempt happens at some
index `j ≤ retries` (all earlier attempts failing), the success value is
returned; if all `retries + 1` attempts fail, the last attempt's error is
propagated. -/
theorem withRetry_spec (fn : Nat → Except E A) (retries : Nat) :
    withRetryAttempts fn retries ≤ retries + 1 ∧
    (∀ j v, j ≤ retries → (∀ k, k < j → ∃ e, fn k = .error e) → fn j = .ok v →
      withRetry fn retries = .ok v) ∧
    (∀ err : Nat → E, (∀ k, k ≤ retries → fn k = .error (err k)) →
      withRetry fn retries = .error (err retries)) := by
  refine ⟨withRetryAttemptsRun_le fn retries 0, ?_, ?_⟩
  · intro j v hj hfail hok
    exact withRetryRun_ok fn retries 0 j v (Nat.zero_le _) (by omega)
      (fun k _ hk => hfail k hk) hok
  · intro err h
    have := withRetryRun_error fn err retries 0 (fun k _ hk => h k (by omega))
    simpa [withRetry] using this

/-- Witness for C5: an operation failing twice then succeeding, with
`retries = 3`, returns the success value. -/
theorem withRetry_spec_witness :
    withRetry (fun k => if k < 2 then Except.error "boom" else Except.ok (37 : Nat)) 3 =
      Except.ok 37 := by
  refine (withRetry_spec (fun k => if k < 2 then Except.error "boom" else Except.ok 37) 3).2.1
    2 37 (by omega) ?_ (by simp)
  intro k hk
  exact ⟨"boom", by simp [hk]⟩

/-! ### Lemmas about the round-robin proxy selector -/

lemma proxyCalls_formula (cfg : ProxyConfig) (hu : cfg.use = true) :
    ∀ n i, i < cfg.list.length →
      proxyCalls cfg ⟨i⟩ n =
        ((List.range n).map
            (fun k => some (cfg.list.getD ((i + k) % cfg.list.length) "")),
         ⟨(i + n) % cfg.list.length⟩) := by
  intro n
  induction n with
  | zero =>
    intro i hi
    simp [proxyCalls, Nat.mod_eq_of_lt hi]
  | succ n ih =>
    intro i hi
    have hpos : 0 < cfg.list.length := Nat.lt_of_le_of_lt (Nat.zero_le _) hi
    have hcond : ¬(cfg.use = false ∨ cfg.list.length = 0) := by
      intro hcontra
      rcases hcontra with h | h
      · rw [hu] at h; exact Bool.noConfusion h
      · omega
    have hi' : (i + 1) % cfg.list.length < cfg.list.length := Nat.mod_lt _ hpos
    simp only [proxyCalls, getNextProxy, if_neg hcond]
    rw [ih ((i + 1) % cfg.list.length) hi']
    rw [Prod.mk.injEq]
    constructor
    · rw [List.range_succ_eq_map, List.map_cons, List.map_map]
      congr 1
      · simp [Nat.mod_eq_of_lt hi]
      · apply List.map_congr_left
        intro k _
        simp only [Function.comp_apply]
        rw [Nat.mod_add_mod]
        have harg : (i + 1 + k) % cfg.list.length =
            (i + Nat.succ k) % cfg.list.length := by
          congr 1
          omega
        rw [harg]
    · rw [Nat.mod_add_mod]
      have harg : i + 1 + n = i + (n + 1) := by omega
      rw [harg]

/-- **C9.** With proxies enabled and a non-empty endpoint list of length `N`,
any `N` consecutive calls to `getNextProxy` starting from cursor `i < N`
return each configured endpoint exactly once — precisely the list rotated to
start at the cursor, hence a permutation of the configured list — and the
shared cursor, advanced modulo `N` on each call, returns to `i`. -/
theorem getNextProxy_roundRobin (cfg : ProxyConfig) (i : Nat)
    (hu : cfg.use = true) (hi : i < cfg.list.length) :
    (proxyCalls cfg ⟨i⟩ cfg.list.length).1 = (cfg.list.rotate i).map some ∧
    (proxyCalls cfg ⟨i⟩ cfg.list.length).1.Perm (cfg.list.map some) ∧
    (proxyCalls cfg ⟨i⟩ cfg.list.length).2 = ⟨i⟩ := by
  have hpos : 0 < cfg.list.length := Nat.lt_of_le_of_lt (Nat.zero_le _) hi
  have h := proxyCalls_formula cfg hu cfg.list.length i hi
  have hfst : (proxyCalls cfg ⟨i⟩ cfg.list.length).1 = (cfg.list.rotate i).map some := by
    rw [h]
    apply List.ext_getElem
    · simp
    · intro j h1 h2
      simp only [List.getElem_map, List.getElem_range, List.getElem_rotate]
      have hlen : j < cfg.list.length := by simpa using h1
      have hmod : (i + j) % cfg.list.length < cfg.list.length := Nat.mod_lt _ hpos
      rw [List.getD_eq_getElem cfg.list "" hmod]
      congr 1
      rw [Nat.add_comm j i]
  refine ⟨hfst, ?_, ?_⟩
  · rw [hfst]
    exact (cfg.list.rotate_perm i).map some
  · rw [h]
    simp [Nat.add_mod_right, Nat.mod_eq_of_lt hi]

/-- Witness for C9: three consecutive calls over the enabled three-endpoint
configuration starting at cursor 1 visit `b, c, a` and restore the cursor. -/
theorem getNextProxy_roundRobin_witness :
    (proxyCalls ⟨true, ["a", "b", "c"]⟩ ⟨1⟩ 3).1 =
        (["a", "b", "c"].rotate 1).map some ∧
    (proxyCalls ⟨true, ["a", "b", "c"]⟩ ⟨1⟩ 3).1.Perm (["a", "b", "c"].map some) ∧
    (proxyCalls ⟨true, ["a", "b", "c"]⟩ ⟨1⟩ 3).2 = ⟨1⟩ :=
  getNextProxy_roundRobin ⟨true, ["a", "b", "c"]⟩ 1 rfl (by decide)

/-! ## Scrape persistence: `saveJobsToDatabase`
(`scrapers/base.scraper.js`; the `scraping.service.js` variant differs only
in the uniqueness key used by the duplicate query, abstracted here by
`existing`). -/

structure Job where
  url : String
  title : String
  company : String
deriving Repr, DecidableEq

structure SaveStats where
  total : Nat
  newJobs : Nat
  duplicates : Nat
  sampleTitles : List String
deriving Repr, DecidableEq

/-- Oracle for the per-job backend-store interactions of the save loop:
whether the duplicate-check query errors, whether a row with the job's
(platform, uniqueness key) already exists, and whether the insert errors. -/
structure StoreModel where
  checkFails : Job → Bool
  existing : Job → Bool
  insertFails : Job → Bool

/-- The `for (const job of jobs)` body of `saveJobsToDatabase`: a check
error or insert error `continue`s without counting; an existing row
increments `duplicates`; a successful insert increments `newJobs` and
appends to `sampleTitles` while it has fewer than 5 entries. -/
def saveJobsLoop (store : StoreModel) : List Job → SaveStats → SaveStats
  | [], stats => stats
  | job :: rest, stats =>
    if store.checkFails job then
      saveJobsLoop store rest stats
    else if store.existing job then
      saveJobsLoop store rest { stats with duplicates := stats.duplicates + 1 }
    else if store.insertFails job then
      saveJobsLoop store rest stats
    else if stats.sampleTitles.length < 5 then
      saveJobsLoop store rest
        { stats with
            newJobs := stats.newJobs + 1,
            sampleTitles := stats.sampleTitles ++ [job.title ++ " at " ++ job.company] }
    else
      saveJobsLoop store rest { stats with newJobs := stats.newJobs + 1 }

/-- `saveJobsToDatabase`: initializes `stats.total` to `jobs.length`,
returns early on an empty batch, then runs the save loop. -/
def saveJobsToDatabase (store : StoreModel) (jobs : List Job) : SaveStats :=
  let stats : SaveStats :=
    { total := jobs.length, newJobs := 0, duplicates := 0, sampleTitles := [] }
  if jobs.length = 0 then stats else saveJobsLoop store jobs stats

lemma saveJobsLoop_total (store : StoreModel) :
    ∀ jobs stats, (saveJobsLoop store jobs stats).total = stats.total := by
  intro jobs
  induction jobs with
  | nil => intro stats; simp [saveJobsLoop]
  | cons job rest ih =>
    intro stats
    simp only [saveJobsLoop]
    split_ifs <;> simp [ih]

lemma saveJobsLoop_duplicates (store : StoreModel) :
    ∀ jobs stats, (∀ j ∈ jobs, store.checkFails j = false) →
      (∀ j ∈ jobs, store.insertFails j = false) →
      (saveJobsLoop store jobs stats).duplicates
        = stats.duplicates + (jobs.filter store.existing).length := by
  intro jobs
  induction jobs with
  | nil => intro stats _ _; simp [saveJobsLoop]
  | cons job rest ih =>
    intro stats hc hi
    have hcj : store.checkFails job = false := hc job (by simp)
    have hij : store.insertFails job = false := hi job (by simp)
    have hc' : ∀ j ∈ rest, store.checkFails j = false :=
      fun j hj => hc j (by simp [hj])
    have hi' : ∀ j ∈ rest, store.insertFails j = false :=
      fun j hj => hi j (by simp [hj])
    simp only [saveJobsLoop, hcj, Bool.false_eq_true, if_false]
    cases hex : store.existing job with
    | true =>
      simp only [if_true, ih _ hc' hi', List.filter_cons, hex]
      simp
      omega
    | false =>
      simp only [Bool.false_eq_true, if_false, hij]
      rw [List.filter_cons_of_neg (by simp [hex])]
      split_ifs <;> simp [ih _ hc' hi']

lemma saveJobsLoop_newJobs (store : StoreModel) :
    ∀ jobs stats, (∀ j ∈ jobs, store.checkFails j = false) →
      (∀ j ∈ jobs, store.insertFails j = false) →
      (saveJobsLoop store jobs stats).newJobs
        = stats.newJobs + (jobs.filter (fun j => !store.existing j)).length := by
  intro jobs
  induction jobs with
  | nil => intro stats _ _; simp [saveJobsLoop]
  | cons job rest ih =>
    intro stats hc hi
    have hcj : store.checkFails job = false := hc job (by simp)
    have hij : store.insertFails job = false := hi job (by simp)
    have hc' : ∀ j ∈ rest, store.checkFails j = false :=
      fun j hj => hc j (by simp [hj])
    have hi' : ∀ j ∈ rest, store.insertFails j = false :=
      fun j hj => hi j (by simp [hj])
    simp only [saveJobsLoop, hcj, Bool.false_eq_true, if_false]
    cases hex : store.existing job with
    | true =>
      simp only [if_true, ih _ hc' hi']
      rw [List.filter_cons_of_neg (by simp [hex])]
    | false =>
      simp only [Bool.false_eq_true, if_false, hij]
      rw [List.filter_cons_of_pos (by simp [hex])]
      split_ifs <;> simp [ih _ hc' hi'] <;> omega

lemma length_filter_add_length_filter_not (p : α → Bool) :
    ∀ l : List α, (l.filter p).length + (l.filter (fun a => !p a)).length = l.length := by
  intro l
  induction l with
  | nil => simp
  | cons a t ih => cases h : p a <;> simp [List.filter_cons, h] <;> omega

/-- **C1.** If extraction yields `K` listings of which exactly `D` already
exist in the backend store, and no duplicate-check or insert call fails,
then the scrape save statistics are `total = K`, `duplicates = D`,
`newJobs = K - D`. -/
theorem saveJobsToDatabase_counts (store : StoreModel) (jobs : List Job)
    (hcheck : ∀ j ∈ jobs, store.checkFails j = false)
    (hinsert : ∀ j ∈ jobs, store.insertFails j = false) :
    (saveJobsToDatabase store jobs).total = jobs.length ∧
    (saveJobsToDatabase store jobs).duplicates = (jobs.filter store.existing).length ∧
    (saveJobsToDatabase store jobs).newJobs
      = jobs.length - (jobs.filter store.existing).length := by
  unfold saveJobsToDatabase
  cases jobs with
  | nil => simp
  | cons job rest =>
    simp only [List.length_cons, Nat.succ_ne_zero, if_false]
    refine ⟨saveJobsLoop_total store _ _, ?_, ?_⟩
    · rw [saveJobsLoop_duplicates store _ _ hcheck hinsert]
      simp
    · rw [saveJobsLoop_newJobs store _ _ hcheck hinsert]
      have := length_filter_add_length_filter_not store.existing (job :: rest)
      simp only [List.length_cons] at *
      omega

/-- Witness for C1: three listings of which one is already stored, no store
failures — `total = 3`, `duplicates = 1`, `newJobs = 2`. -/
theorem saveJobsToDatabase_counts_witness :
    (saveJobsToDatabase
        ⟨fun _ => false, fun j => j.url == "u2", fun _ => false⟩
        [⟨"u1", "t1", "c1"⟩, ⟨"u2", "t2", "c2"⟩, ⟨"u3", "t3", "c3"⟩]).total = 3 ∧
    (saveJobsToDatabase
        ⟨fun _ => false, fun j => j.url == "u2", fun _ => false⟩
        [⟨"u1", "t1", "c1"⟩, ⟨"u2", "t2", "c2"⟩, ⟨"u3", "t3", "c3"⟩]).duplicates = 1 ∧
    (saveJobsToDatabase
        ⟨fun _ => false, fun j => j.url == "u2", fun _ => false⟩
        [⟨"u1", "t1", "c1"⟩, ⟨"u2", "t2", "c2"⟩, ⟨"u3", "t3", "c3"⟩]).newJobs = 2 := by
  have h := saveJobsToDatabase_counts
    ⟨fun _ => false, fun j => j.url == "u2", fun _ => false⟩
    [⟨"u1", "t1", "c1"⟩, ⟨"u2", "t2", "c2"⟩, ⟨"u3", "t3", "c3"⟩]
    (by intro j _; rfl) (by intro j _; rfl)
  simpa using h

/-! ## Multi-step application form loops
(`LinkedInPlatform.applyToJob`, `IndeedPlatform.handleIndeedApplyForm`,
`GlassdoorPlatform.handleGlassdoorApplyForm`). -/

/-- Which recognized navigation controls the current form step exposes
(`elementExists` on the continue / submit / review selectors). -/
structure StepControls where
  hasContinue : Bool
  hasSubmit : Bool
  hasReview : Bool
deriving Repr, DecidableEq

inductive StepAction
  | clickReview
  | clickSubmit
  | clickContinue
  | raiseUnrecognized
deriving Repr, DecidableEq

/-- Control chosen by one iteration of `LinkedInPlatform.applyToJob`: the
code tests `hasReviewButton` first, then `hasSubmitButton`, then
`hasNextButton`, and throws a `PlatformError` when none is present. -/
def linkedInStepAction (c : StepControls) : StepAction :=
  if c.hasReview then .clickReview
  else if c.hasSubmit then .clickSubmit
  else if c.hasContinue then .clickContinue
  else .raiseUnrecognized

/-- Control chosen by one iteration of `IndeedPlatform.handleIndeedApplyForm`:
`hasSubmitButton` first, then `hasReviewButton`, then `hasContinueButton`,
else a `PlatformError`. -/
def indeedStepAction (c : StepControls) : StepAction :=
  if c.hasSubmit then .clickSubmit
  else if c.hasReview then .clickReview
  else if c.hasContinue then .clickContinue
  else .raiseUnrecognized

/-- Control chosen by one iteration of
`GlassdoorPlatform.handleGlassdoorApplyForm`: same order as Indeed. -/
def glassdoorStepAction (c : StepControls) : StepAction :=
  if c.hasSubmit then .clickSubmit
  else if c.hasReview then .clickReview
  else if c.hasContinue then .clickContinue
  else .raiseUnrecognized

/-- Modelled from the spec: inspect for a submit, review, or continue
control *in that priority order* — the order the specification prescribes
for every adapter. -/
def specSubmitFirstAction (c : StepControls) : StepAction :=
  if c.hasSubmit then .clickSubmit
  else if c.hasReview then .clickReview
  else if c.hasContinue then .clickContinue
  else .raiseUnrecognized

/-- **C3 (counterexample).** On a step exposing both a submit and a review
control, `LinkedInPlatform.applyToJob` clicks the review control, not the
submit control the spec's priority order (submit first) demands. -/
theorem linkedInStepAction_not_submit_first :
    linkedInStepAction ⟨false, true, true⟩ = StepAction.clickReview ∧
    specSubmitFirstAction ⟨false, true, true⟩ = StepAction.clickSubmit ∧
    linkedInStepAction ⟨false, true, true⟩ ≠
      specSubmitFirstAction ⟨false, true, true⟩ := by
  decide

/-- **C3 (amended).** Each adapter iteration acts on exactly one control:
Indeed and Glassdoor inspect in the spec's submit–review–continue priority
order, while LinkedIn inspects review first and otherwise follows the
spec's order; in every adapter the chosen action is a click on a single
present control, and the unrecognized case arises exactly when no control
is present. -/
theorem stepAction_priority (c : StepControls) :
    indeedStepAction c = specSubmitFirstAction c ∧
    glassdoorStepAction c = specSubmitFirstAction c ∧
    linkedInStepAction c =
      (if c.hasReview then StepAction.clickReview else specSubmitFirstAction c) ∧
    ((linkedInStepAction c = StepAction.raiseUnrecognized) =
      (c.hasContinue = false ∧ c.hasSubmit = false ∧ c.hasReview = false)) ∧
    ((indeedStepAction c = StepAction.raiseUnrecognized) =
      (c.hasContinue = false ∧ c.hasSubmit = false ∧ c.hasReview = false)) := by
  rcases c with ⟨hc, hs, hr⟩
  cases hc <;> cases hs <;> cases hr <;>
    simp [linkedInStepAction, indeedStepAction, glassdoorStepAction,
      specSubmitFirstAction]

/-- Witness for the amended C3, at a step exposing only a continue control. -/
theorem stepAction_priority_witness :
    indeedStepAction ⟨true, false, false⟩ = specSubmitFirstAction ⟨true, false, false⟩ ∧
    glassdoorStepAction ⟨true, false, false⟩ =
      specSubmitFirstAction ⟨true, false, false⟩ ∧
    linkedInStepAction ⟨true, false, false⟩ =
      (if (false : Bool) then StepAction.clickReview
       else specSubmitFirstAction ⟨true, false, false⟩) ∧
    ((linkedInStepAction ⟨true, false, false⟩ = StepAction.raiseUnrecognized) =
      ((true : Bool) = false ∧ (false : Bool) = false ∧ (false : Bool) = false)) ∧
    ((indeedStepAction ⟨true, false, false⟩ = StepAction.raiseUnrecognized) =
      ((true : Bool) = false ∧ (false : Bool) = false ∧ (false : Bool) = false)) :=
  stepAction_priority ⟨true, false, false⟩

/-! ### The LinkedIn submission loop itself (C2)

The page is modelled by the controls it exposes at each loop iteration and
by the success / error feedback shown after the submit click.  The loop is
fuel-indexed: `none` means the `while (true)` loop is still running after
the given number of iterations — the source imposes no iteration bound. -/

structure FormPage where
  controls : Nat → StepControls
  submitSucceeds : Bool
  submitError : Bool

inductive ApplyOutcome
  | applied
  | submitFailed
  | unrecognizedFormState
deriving Repr, DecidableEq

/-- Outcome of the submit branch of `LinkedInPlatform.applyToJob`: success
feedback (or absence of both feedback elements) returns `true`; an error
feedback element raises `PlatformError "Application failed"`. -/
def linkedInSubmitOutcome (page : FormPage) : ApplyOutcome :=
  if page.submitSucceeds then .applied
  else if page.submitError then .submitFailed
  else .applied

/-- The `while (true)` loop of `LinkedInPlatform.applyToJob`, starting at
iteration `k` with `fuel` iterations of budget. -/
def linkedInApplyLoop (page : FormPage) : Nat → Nat → Option ApplyOutcome
  | _, 0 => none
  | k, fuel + 1 =>
    let c := page.controls k
    if c.hasReview then linkedInApplyLoop page (k + 1) fuel
    else if c.hasSubmit then some (linkedInSubmitOutcome page)
    else if c.hasContinue then linkedInApplyLoop page (k + 1) fuel
    else some ApplyOutcome.unrecognizedFormState

/-- The loop terminates iff some finite iteration budget suffices. -/
def linkedInApplyTerminates (page : FormPage) : Prop :=
  ∃ fuel, (linkedInApplyLoop page 0 fuel).isSome

/-- A form step that keeps the loop going: no submit control, but a review
or continue control to click. -/
def advancesStep (c : StepControls) : Prop :=
  c.hasSubmit = false ∧ (c.hasReview = true ∨ c.hasContinue = true)

lemma linkedInApplyLoop_skip (page : FormPage) :
    ∀ n k fuel, (∀ i, i < n → advancesStep (page.controls (k + i))) →
      linkedInApplyLoop page k (n + fuel) = linkedInApplyLoop page (k + n) fuel := by
  intro n
  induction n with
  | zero => intro k fuel _; simp
  | succ n ih =>
    intro k fuel h
    have h0 : advancesStep (page.controls k) := by
      simpa using h 0 (by omega)
    obtain ⟨hs, hrc⟩ := h0
    have hstep : linkedInApplyLoop page k (n + fuel + 1) =
        linkedInApplyLoop page (k + 1) (n + fuel) := by
      rcases hrc with hr | hc
      · simp [linkedInApplyLoop, hr]
      · cases hr : (page.controls k).hasReview
        · simp [linkedInApplyLoop, hr, hs, hc]
        · simp [linkedInApplyLoop, hr]
    have hrest : ∀ i, i < n → advancesStep (page.controls (k + 1 + i)) := by
      intro i hi
      have := h (i + 1) (by omega)
      have harg : k + (i + 1) = k + 1 + i := by omega
      rwa [harg] at this
    have : n + 1 + fuel = n + fuel + 1 := by omega
    rw [this, hstep, ih (k + 1) fuel hrest]
    congr 1
    omega

lemma linkedInApplyLoop_const_continue :
    ∀ fuel k, linkedInApplyLoop ⟨fun _ => ⟨true, false, false⟩, true, false⟩ k fuel = none := by
  intro fuel
  induction fuel with
  | zero => intro k; rfl
  | succ n ih =>
    intro k
    simp [linkedInApplyLoop, ih]

/-- **C2 (counterexample).** On a form whose every step exposes a recognized
continue control (and never a submit control), the multi-step submission
loop of `LinkedInPlatform.applyToJob` never terminates for any iteration
budget: the source enforces no maximum iteration count. -/
theorem linkedInApplyLoop_no_iteration_bound :
    ¬ linkedInApplyTerminates ⟨fun _ => ⟨true, false, false⟩, true, false⟩ := by
  intro hterm
  obtain ⟨fuel, hsome⟩ := hterm
  rw [linkedInApplyLoop_const_continue fuel 0] at hsome
  simp at hsome

/-- **C2 (amended).** The loop ends on submit success/failure detection,
and a form step exposing no recognized control raises the typed
"unrecognized form state" platform error instead of looping forever — but
no maximum iteration count is enforced, so termination holds only when a
submit step or an unrecognized step is eventually reached.  Concretely: if
every iteration before `n` exposes a review or continue control and no
submit control, then (a) if step `n` exposes no recognized control the
loop raises the typed error, and (b) if step `n` exposes a submit control
and no review control the loop ends with the submit outcome. -/
theorem linkedInApplyLoop_terminal_steps (page : FormPage) (n fuel : Nat)
    (hpre : ∀ i, i < n → advancesStep (page.controls i))
    (hfuel : n < fuel) :
    ((page.controls n).hasSubmit = false → (page.controls n).hasReview = false →
      (page.controls n).hasContinue = false →
      linkedInApplyLoop page 0 fuel = some ApplyOutcome.unrecognizedFormState) ∧
    ((page.controls n).hasSubmit = true → (page.controls n).hasReview = false →
      linkedInApplyLoop page 0 fuel = some (linkedInSubmitOutcome page)) := by
  have hfe : fuel = n + (fuel - n) := by omega
  have hsplit : linkedInApplyLoop page 0 fuel = linkedInApplyLoop page n (fuel - n) := by
    conv_lhs => rw [hfe]
    rw [linkedInApplyLoop_skip page n 0 (fuel - n) (by simpa using hpre)]
    simp
  obtain ⟨m, hm⟩ : ∃ m, fuel - n = m + 1 := ⟨fuel - n - 1, by omega⟩
  constructor
  · intro hs hr hc
    rw [hsplit, hm]
    simp [linkedInApplyLoop, hs, hr, hc]
  · intro hs hr
    rw [hsplit, hm]
    simp [linkedInApplyLoop, hs, hr]

/-- Witness for the amended C2: a scripted form `[continue, continue,
review, submit]` completes with the submit outcome (here: applied). -/
theorem linkedInApplyLoop_terminal_steps_witness :
    linkedInApplyLoop
      ⟨fun k => if k < 2 then ⟨true, false, false⟩
                else if k = 2 then ⟨false, false, true⟩
                else ⟨false, true, false⟩, true, false⟩ 0 10 =
      some (linkedInSubmitOutcome
        ⟨fun k => if k < 2 then ⟨true, false, false⟩
                  else if k = 2 then ⟨false, false, true⟩
                  else ⟨false, true, false⟩, true, false⟩) := by
  refine (linkedInApplyLoop_terminal_steps
    ⟨fun k => if k < 2 then ⟨true, false, false⟩
              else if k = 2 then ⟨false, false, true⟩
              else ⟨false, true, false⟩, true, false⟩ 3 10 ?_ (by omega)).2 rfl rfl
  intro i hi
  interval_cases i <;> simp [advancesStep]

/-! ## Batch application: `applyToJobs` (`application.service.js`)

`applyToJob` returns a result whose `status` is `"success"` or `"failed"`
(internal errors are caught and produce `"failed"`), and can itself throw
only outside its try/catch (missing URL, undetectable platform, a store
write outside the guarded region).  `runJob` models that interface: `.ok`
carries the returned status, `.error` a thrown message. -/

inductive AppStatus
  | success
  | failed
  | errored
deriving Repr, DecidableEq

structure JobRef where
  id : String
deriving Repr, DecidableEq

structure ApplyEntry where
  jobId : String
  status : AppStatus
deriving Repr, DecidableEq

@[ext]
structure BatchResult where
  totalJobs : Nat
  successCount : Nat
  failedCount : Nat
  entries : List ApplyEntry
deriving Repr, DecidableEq

/-- The `for (const job of jobs)` body of `applyToJobs`: a returned result
increments `successCount` exactly when its status is `"success"` and
`failedCount` otherwise; a thrown error is caught, increments
`failedCount`, and records a `status: "error"` entry. -/
def applyToJobsLoop (runJob : JobRef → Except String AppStatus) :
    List JobRef → BatchResult → BatchResult
  | [], acc => acc
  | job :: rest, acc =>
    match runJob job with
    | .ok s =>
      applyToJobsLoop runJob rest
        { acc with
            successCount :=
              if s = AppStatus.success then acc.successCount + 1 else acc.successCount,
            failedCount :=
              if s = AppStatus.success then acc.failedCount else acc.failedCount + 1,
            entries := acc.entries ++ [⟨job.id, s⟩] }
    | .error _ =>
      applyToJobsLoop runJob rest
        { acc with
            failedCount := acc.failedCount + 1,
            entries := acc.entries ++ [⟨job.id, AppStatus.errored⟩] }

/-- `applyToJobs`: throws `ApplicationError "No jobs provided"` on an empty
batch, otherwise processes the jobs sequentially and returns the
accumulated result object. -/
def applyToJobs (runJob : JobRef → Except String AppStatus) (jobs : List JobRef) :
    Except String BatchResult :=
  if jobs.length = 0 then .error "No jobs provided"
  else .ok (applyToJobsLoop runJob jobs ⟨jobs.length, 0, 0, []⟩)

/-- Whether a job's run counts as a success in the batch counters. -/
def jobSucceeds (runJob : JobRef → Except String AppStatus) (j : JobRef) : Bool :=
  match runJob j with
  | .ok AppStatus.success => true
  | _ => false

/-- The entry `applyToJobs` records for one job. -/
def entryOf (runJob : JobRef → Except String AppStatus) (j : JobRef) : ApplyEntry :=
  match runJob j with
  | .ok s => ⟨j.id, s⟩
  | .error _ => ⟨j.id, AppStatus.errored⟩

lemma applyToJobsLoop_spec (runJob : JobRef → Except String AppStatus) :
    ∀ jobs acc,
      applyToJobsLoop runJob jobs acc =
        { totalJobs := acc.totalJobs,
          successCount :=
            acc.successCount + (jobs.filter (jobSucceeds runJob)).length,
          failedCount :=
            acc.failedCount + (jobs.filter (fun j => !jobSucceeds runJob j)).length,
          entries := acc.entries ++ jobs.map (entryOf runJob) } := by
  intro jobs
  induction jobs with
  | nil => intro acc; simp [applyToJobsLoop]
  | cons job rest ih =>
    intro acc
    cases hrj : runJob job with
    | ok s =>
      have hent : entryOf runJob job = ⟨job.id, s⟩ := by simp [entryOf, hrj]
      by_cases hs : s = AppStatus.success
      · have hsucc : jobSucceeds runJob job = true := by
          simp [jobSucceeds, hrj, hs]
        simp only [applyToJobsLoop, hrj, ih]
        refine BatchResult.ext ?_ ?_ ?_ ?_ <;>
          simp [List.filter_cons, hsucc, hent, hs] <;> omega
      · have hsucc : jobSucceeds runJob job = false := by
          simp only [jobSucceeds, hrj]
          cases s <;> simp_all
        simp only [applyToJobsLoop, hrj, ih]
        refine BatchResult.ext ?_ ?_ ?_ ?_ <;>
          simp [List.filter_cons, hsucc, hent, hs] <;> omega
    | error e =>
      have hent : entryOf runJob job = ⟨job.id, AppStatus.errored⟩ := by
        simp [entryOf, hrj]
      have hsucc : jobSucceeds runJob job = false := by simp [jobSucceeds, hrj]
      simp only [applyToJobsLoop, hrj, ih]
      refine BatchResult.ext ?_ ?_ ?_ ?_ <;>
        simp [List.filter_cons, hsucc, hent] <;> omega

/-- **C6.** For every non-empty job list, `applyToJobs` processes the jobs
strictly sequentially — the returned entries are exactly the per-job
outcomes in input order — never raises on an individual job's failure, and
its counters satisfy `successCount + failedCount = totalJobs = jobs.length`. -/
theorem applyToJobs_spec (runJob : JobRef → Except String AppStatus)
    (jobs : List JobRef) (hne : jobs ≠ []) :
    ∃ r : BatchResult, applyToJobs runJob jobs = .ok r ∧
      r.totalJobs = jobs.length ∧
      r.successCount + r.failedCount = r.totalJobs ∧
      r.entries = jobs.map (entryOf runJob) := by
  have hlen : jobs.length ≠ 0 := by
    intro h
    exact hne (List.length_eq_zero.mp h)
  refine ⟨applyToJobsLoop runJob jobs ⟨jobs.length, 0, 0, []⟩, ?_, ?_, ?_, ?_⟩
  · simp [applyToJobs, hlen]
  · rw [applyToJobsLoop_spec]
  · rw [applyToJobsLoop_spec]
    simp only [Nat.zero_add]
    have := length_filter_add_length_filter_not (jobSucceeds runJob) jobs
    omega
  · rw [applyToJobsLoop_spec]
    simp

/-- Witness for C6: a batch of three jobs, one succeeding, one returning
failed, one throwing — counters `1 + 2 = 3` and entries in input order. -/
theorem applyToJobs_spec_witness :
    ∃ r : BatchResult,
      applyToJobs
          (fun j => if j.id = "a" then .ok AppStatus.success
                    else if j.id = "b" then .ok AppStatus.failed
                    else .error "boom")
          [⟨"a"⟩, ⟨"b"⟩, ⟨"c"⟩] = .ok r ∧
      r.totalJobs = 3 ∧
      r.successCount + r.failedCount = r.totalJobs ∧
      r.entries = [⟨"a"⟩, ⟨"b"⟩, ⟨"c"⟩].map (entryOf
        (fun j => if j.id = "a" then .ok AppStatus.success
                  else if j.id = "b" then .ok AppStatus.failed
                  else .error "boom")) := by
  have h := applyToJobs_spec
    (fun j => if j.id = "a" then .ok AppStatus.success
              else if j.id = "b" then .ok AppStatus.failed
              else .error "boom")
    [⟨"a"⟩, ⟨"b"⟩, ⟨"c"⟩] (by simp)
  simpa using h

/-! ## Resource release on operation exit paths
(`applyToJob` and `testPlatform` in `application.service.js`, `scrapeJobs`
in `scraping.service.js`, `BaseScraper.scrape` in
`scrapers/base.scraper.js`).

Each operation is modelled as a function from a scenario — which of its
fallible steps succeed — to its outcome together with the ordered list of
resource-close events its `finally` block performs. -/

inductive ResEvent
  | closePage
  | closeContext
  | closeBrowser
deriving Repr, DecidableEq

structure ApplyScenario where
  hasUrl : Bool
  platformKnown : Bool
  acquireOk : Bool
  loginOk : Bool
  navigateOk : Bool
  applyOk : Bool
deriving Repr, DecidableEq

/-- `applyToJob`: missing URL or undetectable platform throw before any
resource is acquired; an acquisition failure is caught with nothing to
close; otherwise the try/catch yields status success or failed and the
`finally` block closes the page, then the context — never the browser. -/
def applyToJobRun (sc : ApplyScenario) : Except String AppStatus × List ResEvent :=
  if sc.hasUrl = false then (.error "Missing job URL", [])
  else if sc.platformKnown = false then
    (.error "Failed to detect platform from URL", [])
  else if sc.acquireOk = false then (.ok AppStatus.failed, [])
  else if sc.loginOk && sc.navigateOk && sc.applyOk then
    (.ok AppStatus.success, [ResEvent.closePage, ResEvent.closeContext])
  else
    (.ok AppStatus.failed, [ResEvent.closePage, ResEvent.closeContext])

/-- `scrapeJobs` (`scraping.service.js`): failures rethrow out of the
catch, and the `finally` block closes page then context whenever they were
assigned; the browser is deliberately left open for reuse. -/
def scrapeJobsRun (acquireOk scrapeOk saveOk : Bool) :
    Except String Unit × List ResEvent :=
  if acquireOk = false then (.error "browser init failed", [])
  else if scrapeOk = false then
    (.error "scraping failed", [ResEvent.closePage, ResEvent.closeContext])
  else if saveOk = false then
    (.error "saving failed", [ResEvent.closePage, ResEvent.closeContext])
  else (.ok (), [ResEvent.closePage, ResEvent.closeContext])

/-- `BaseScraper.scrape`: same release discipline as `scrapeJobs` (errors
are wrapped in a `PlatformError` and rethrown; `finally` closes page then
context, never the browser). -/
def baseScraperScrapeRun (acquireOk scrapeOk saveOk : Bool) :
    Except String Unit × List ResEvent :=
  if acquireOk = false then (.error "browser init failed", [])
  else if scrapeOk = false then
    (.error "Scraping failed", [ResEvent.closePage, ResEvent.closeContext])
  else if saveOk = false then
    (.error "Scraping failed", [ResEvent.closePage, ResEvent.closeContext])
  else (.ok (), [ResEvent.closePage, ResEvent.closeContext])

/-- **C7 (counterexample).** On a successful application run both the page
and the context are closed — but in the order page first, then context,
not the context-then-page order the claim states. -/
theorem release_order_counterexample :
    (applyToJobRun ⟨true, true, true, true, true, true⟩).2 =
        [ResEvent.closePage, ResEvent.closeContext] ∧
    (applyToJobRun ⟨true, true, true, true, true, true⟩).2 ≠
        [ResEvent.closeContext, ResEvent.closePage] := by
  decide

/-- **C7 (amended).** On every exit path of a scrape or application
operation — success, scrape failure, or application failure — the page and
the context are always closed whenever they were acquired (page first, then
context), no event is emitted when acquisition failed before they existed,
and the underlying browser process is never closed by these operations. -/
theorem release_always_page_then_context (sc : ApplyScenario) (a b c : Bool) :
    (applyToJobRun sc).2 =
      (if sc.hasUrl && sc.platformKnown && sc.acquireOk
       then [ResEvent.closePage, ResEvent.closeContext] else []) ∧
    (scrapeJobsRun a b c).2 =
      (if a then [ResEvent.closePage, ResEvent.closeContext] else []) ∧
    (baseScraperScrapeRun a b c).2 =
      (if a then [ResEvent.closePage, ResEvent.closeContext] else []) ∧
    ResEvent.closeBrowser ∉ (applyToJobRun sc).2 ∧
    ResEvent.closeBrowser ∉ (scrapeJobsRun a b c).2 ∧
    ResEvent.closeBrowser ∉ (baseScraperScrapeRun a b c).2 := by
  rcases sc with ⟨u, p, aq, l, n, ap⟩
  cases u <;> cases p <;> cases aq <;> cases l <;> cases n <;> cases ap <;>
    cases a <;> cases b <;> cases c <;> decide

/-- Witness for the amended C7, on a fully successful scenario. -/
theorem release_always_page_then_context_witness :
    (applyToJobRun ⟨true, true, true, true, true, true⟩).2 =
      (if true && true && true
       then [ResEvent.closePage, ResEvent.closeContext] else []) ∧
    (scrapeJobsRun true true true).2 =
      (if true then [ResEvent.closePage, ResEvent.closeContext] else []) ∧
    (baseScraperScrapeRun true true true).2 =
      (if true then [ResEvent.closePage, ResEvent.closeContext] else []) ∧
    ResEvent.closeBrowser ∉ (applyToJobRun ⟨true, true, true, true, true, true⟩).2 ∧
    ResEvent.closeBrowser ∉ (scrapeJobsRun true true true).2 ∧
    ResEvent.closeBrowser ∉ (baseScraperScrapeRun true true true).2 :=
  release_always_page_then_context ⟨true, true, true, true, true, true⟩ true true true

/-! ## Platform probe: `testPlatform` (`application.service.js`) -/

structure ProbeScenario where
  platformSupported : Bool
  acquireOk : Bool
  navigateOk : Bool
  isLoggedIn : Bool
  loginOk : Bool
  screenshotOk : Bool
deriving Repr, DecidableEq

structure ProbeResult where
  status : String
  isLoggedIn : Bool
  hasScreenshot : Bool
deriving Repr, DecidableEq

/-- `testPlatform`: every fallible step is inside the try/catch — an
unsupported platform name, a failed acquisition, a failed navigation and a
thrown login all reach the catch, which returns a `status: "error"` result
(`takeScreenshot` swallows its own failures and returns `null`); the
success path returns `status: "success"`; the `finally` block closes page,
context, and — unlike apply/scrape — the browser itself. -/
def testPlatformRun (sc : ProbeScenario) : ProbeResult × List ResEvent :=
  if sc.platformSupported = false then (⟨"error", false, false⟩, [])
  else if sc.acquireOk = false then (⟨"error", false, false⟩, [])
  else if sc.navigateOk = false then
    (⟨"error", false, sc.screenshotOk⟩,
     [ResEvent.closePage, ResEvent.closeContext, ResEvent.closeBrowser])
  else if sc.isLoggedIn then
    (⟨"success", true, sc.screenshotOk⟩,
     [ResEvent.closePage, ResEvent.closeContext, ResEvent.closeBrowser])
  else if sc.loginOk then
    (⟨"success", true, sc.screenshotOk⟩,
     [ResEvent.closePage, ResEvent.closeContext, ResEvent.closeBrowser])
  else
    (⟨"error", false, sc.screenshotOk⟩,
     [ResEvent.closePage, ResEvent.closeContext, ResEvent.closeBrowser])

/-- **C10.** `testPlatform` never raises: for every platform name
(including unsupported ones) and every combination of login-check, login,
navigation, or screenshot failure it returns a probe result whose status
is `"success"` or `"error"`, and on every exit path on which its resources
were acquired it closes the page, the context, and — unlike the scrape and
apply operations — the browser process itself. -/
theorem testPlatform_never_raises (sc : ProbeScenario) :
    ((testPlatformRun sc).1.status = "success" ∨
      (testPlatformRun sc).1.status = "error") ∧
    (testPlatformRun sc).2 =
      (if sc.platformSupported && sc.acquireOk
       then [ResEvent.closePage, ResEvent.closeContext, ResEvent.closeBrowser]
       else []) := by
  rcases sc with ⟨p, a, n, il, lo, so⟩
  cases p <;> cases a <;> cases n <;> cases il <;> cases lo <;> cases so <;>
    exact ⟨by simp [testPlatformRun], by simp [testPlatformRun]⟩

/-- Witness for C10, on a probe of an unsupported platform name. -/
theorem testPlatform_never_raises_witness :
    ((testPlatformRun ⟨false, true, true, true, true, true⟩).1.status = "success" ∨
      (testPlatformRun ⟨false, true, true, true, true, true⟩).1.status = "error") ∧
    (testPlatformRun ⟨false, true, true, true, true, true⟩).2 =
      (if false && true
       then [ResEvent.closePage, ResEvent.closeContext, ResEvent.closeBrowser]
       else []) :=
  testPlatform_never_raises ⟨false, true, true, true, true, true⟩

/-! ## Orchestration-layer scrape retries
(`BaseScraper.scrape`, `scrapers/base.scraper.js`): `while (retryCount <
this.maxRetries) { try { jobs = await this.scrapeJobs(page, ...); break }
catch { retryCount++; if (retryCount >= this.maxRetries) throw; wait } }`.
The page is acquired once, before the loop; `attempt k` is the outcome of
the k-th `scrapeJobs` call, and the second component records which page id
each performed attempt ran on. -/

def scrapeRetryGo (attempt : Nat → Except String (List Job)) (pageId : Nat) :
    Nat → Nat → Except String (List Job) × List Nat
  | 0, _ => (.ok [], [])
  | remaining + 1, k =>
    match attempt k with
    | .ok jobs => (.ok jobs, [pageId])
    | .error e =>
      if remaining = 0 then (.error e, [pageId])
      else
        let r := scrapeRetryGo attempt pageId remaining (k + 1)
        (r.1, pageId :: r.2)

def scrapeWithRetries (attempt : Nat → Except String (List Job))
    (pageId maxRetries : Nat) : Except String (List Job) × List Nat :=
  scrapeRetryGo attempt pageId maxRetries 0

/-- **C8 (counterexample).** With the default retry budget (`maxRetries =
3`), a first attempt that fails and a second that succeeds both run on the
*same* page (here id 7): the retry does not use a fresh page, so the
attempt pages are not pairwise distinct as the claim requires. -/
theorem scrapeRetry_reuses_same_page :
    (scrapeWithRetries (fun k => if k = 0 then .error "attempt failed" else .ok [])
        7 3).2 = [7, 7] ∧
    ¬ (scrapeWithRetries (fun k => if k = 0 then .error "attempt failed" else .ok [])
        7 3).2.Nodup := by
  decide

lemma scrapeRetryGo_len (attempt : Nat → Except String (List Job)) (pageId : Nat) :
    ∀ remaining k, (scrapeRetryGo attempt pageId remaining k).2.length ≤ remaining := by
  intro remaining
  induction remaining with
  | zero => intro k; simp [scrapeRetryGo]
  | succ n ih =>
    intro k
    cases hfn : attempt k with
    | ok jobs => simp [scrapeRetryGo, hfn]
    | error e =>
      by_cases hn : n = 0
      · simp [scrapeRetryGo, hfn, hn]
      · have := ih (k + 1)
        simp only [scrapeRetryGo, hfn, if_neg hn, List.length_cons]
        omega

lemma scrapeRetryGo_pages (attempt : Nat → Except String (List Job)) (pageId : Nat) :
    ∀ remaining k p, p ∈ (scrapeRetryGo attempt pageId remaining k).2 → p = pageId := by
  intro remaining
  induction remaining with
  | zero => intro k p hp; simp [scrapeRetryGo] at hp
  | succ n ih =>
    intro k p hp
    cases hfn : attempt k with
    | ok jobs =>
      simp [scrapeRetryGo, hfn] at hp
      exact hp
    | error e =>
      by_cases hn : n = 0
      · simp [scrapeRetryGo, hfn, hn] at hp
        exact hp
      · simp only [scrapeRetryGo, hfn, if_neg hn, List.mem_cons] at hp
        rcases hp with hp | hp
        · exact hp
        · exact ih (k + 1) p hp

lemma scrapeRetryGo_ok (attempt : Nat → Except String (List Job)) (pageId : Nat) :
    ∀ remaining k j jobs, k ≤ j → j < k + remaining →
      (∀ t, k ≤ t → t < j → ∃ e, attempt t = .error e) → attempt j = .ok jobs →
      (scrapeRetryGo attempt pageId remaining k).1 = .ok jobs := by
  intro remaining
  induction remaining with
  | zero => intro k j jobs h1 h2 _ _; omega
  | succ n ih =>
    intro k j jobs h1 h2 hfail hok
    rcases Nat.eq_or_lt_of_le h1 with heq | hlt
    · subst heq
      simp [scrapeRetryGo, hok]
    · obtain ⟨e, he⟩ := hfail k (le_refl _) hlt
      have hn : n ≠ 0 := by omega
      simp only [scrapeRetryGo, he, if_neg hn]
      exact ih (k + 1) j jobs hlt (by omega)
        (fun t ht1 ht2 => hfail t (by omega) ht2) hok

lemma scrapeRetryGo_error (attempt : Nat → Except String (List Job)) (pageId : Nat)
    (err : Nat → String) :
    ∀ remaining k, remaining ≠ 0 →
      (∀ t, k ≤ t → t < k + remaining → attempt t = .error (err t)) →
      (scrapeRetryGo attempt pageId remaining k).1 = .error (err (k + remaining - 1)) := by
  intro remaining
  induction remaining with
  | zero => intro k h; omega
  | succ n ih =>
    intro k _ h
    have hk : attempt k = .error (err k) := h k (le_refl _) (by omega)
    by_cases hn : n = 0
    · subst hn
      simp [scrapeRetryGo, hk]
    · simp only [scrapeRetryGo, hk, if_neg hn]
      have := ih (k + 1) hn (fun t ht1 ht2 => h t (by omega) (by omega))
      rw [this]
      congr 2
      omega

/-- **C8 (amended).** A full scrape attempt that fails is retried at the
orchestration layer up to the platform's retry budget — at most
`maxRetries` attempts in total, the success value returned as soon as an
attempt succeeds, and the last attempt's error propagated when all
`maxRetries` attempts fail — but every attempt, retries included, runs on
the *same* page (acquired once, in the same still-open browser process),
not on a fresh page per retry. -/
theorem scrapeWithRetries_spec (attempt : Nat → Except String (List Job))
    (pageId maxRetries : Nat) :
    (scrapeWithRetries attempt pageId maxRetries).2.length ≤ maxRetries ∧
    (∀ p ∈ (scrapeWithRetries attempt pageId maxRetries).2, p = pageId) ∧
    (∀ j jobs, j < maxRetries →
      (∀ t, t < j → ∃ e, attempt t = .error e) → attempt j = .ok jobs →
      (scrapeWithRetries attempt pageId maxRetries).1 = .ok jobs) ∧
    (∀ err : Nat → String, maxRetries ≠ 0 →
      (∀ t, t < maxRetries → attempt t = .error (err t)) →
      (scrapeWithRetries attempt pageId maxRetries).1 =
        .error (err (maxRetries - 1))) := by
  refine ⟨scrapeRetryGo_len attempt pageId maxRetries 0,
    fun p hp => scrapeRetryGo_pages attempt pageId maxRetries 0 p hp, ?_, ?_⟩
  · intro j jobs hj hfail hok
    exact scrapeRetryGo_ok attempt pageId maxRetries 0 j jobs (Nat.zero_le _)
      (by omega) (fun t _ ht => hfail t ht) hok
  · intro err hmr h
    have := scrapeRetryGo_error attempt pageId err maxRetries 0 hmr
      (fun t _ ht => h t (by omega))
    simpa [scrapeWithRetries] using this

/-- Witness for the amended C8: first attempt fails, second succeeds with
one job — the loop returns that attempt's jobs. -/
theorem scrapeWithRetries_spec_witness :
    (scrapeWithRetries
        (fun k => if k = 0 then .error "attempt failed"
                  else .ok [⟨"u", "t", "c"⟩]) 7 3).1 = .ok [⟨"u", "t", "c"⟩] := by
  refine (scrapeWithRetries_spec
      (fun k => if k = 0 then .error "attempt failed" else .ok [⟨"u", "t", "c"⟩])
      7 3).2.2.1 1 [⟨"u", "t", "c"⟩] (by omega) ?_ (by simp)
  intro t ht
  exact ⟨"attempt failed", by simp [show t = 0 by omega]⟩

/-! ## Browser session pool: `getBrowserForPlatform`
(`browser.service.js`, the `Map`-based pool).

State: the `browsers` map (platform key → browser), the set of launched
browser processes that are still running (`live`; `browser.isConnected()`
is modelled as membership), which key each process was launched for, and a
fresh-id counter.  Launching a process puts it in `live`; nothing in
`getBrowserForPlatform` ever closes a previously launched process. -/

/-- `platform.toLowerCase()`: per-character lowercasing of the platform
name into the pool key. -/
def toLowerKey (s : String) : String :=
  ⟨s.data.map Char.toLower⟩

structure PoolState where
  pool : List (String × Nat)
  live : List Nat
  launchedFor : List (Nat × String)
  nextId : Nat
deriving Repr, DecidableEq

/-- `browsers.set(platformKey, ...)`: replace any binding for the key. -/
def poolSet (pool : List (String × Nat)) (key : String) (id : Nat) :
    List (String × Nat) :=
  pool.filter (fun kv => !(kv.1 == key)) ++ [(key, id)]

/-- `chromium.launch(...)` plus `browsers.set`: a fresh process id is
registered in the pool for the key; the previous process for the key — if
any — is *not* closed and stays live. -/
def launchBrowser (s : PoolState) (key : String) : Nat × PoolState :=
  (s.nextId,
   { pool := poolSet s.pool key s.nextId,
     live := s.nextId :: s.live,
     launchedFor := (s.nextId, key) :: s.launchedFor,
     nextId := s.nextId + 1 })

/-- `getBrowserForPlatform(platform, { useExisting })`: with `useExisting`
and a pooled entry whose process is still connected, reuse it unchanged;
with a pooled but disconnected entry, delete it and launch; otherwise
launch a new process. -/
def getBrowserForPlatform (s : PoolState) (platform : String)
    (useExisting : Bool) : Nat × PoolState :=
  let key := (toLowerKey platform)
  if useExisting then
    match s.pool.lookup key with
    | some b =>
      if s.live.contains b then (b, s)
      else
        launchBrowser
          { s with pool := s.pool.filter (fun kv => !(kv.1 == key)) } key
    | none => launchBrowser s key
  else launchBrowser s key

/-- The `browser.on("disconnected", ...)` handler: the process is no
longer running and the pool entry for its platform key is deleted. -/
def disconnectBrowser (s : PoolState) (platform : String) (id : Nat) : PoolState :=
  { s with
      live := s.live.filter (fun x => !(x == id)),
      pool := s.pool.filter (fun kv => !(kv.1 == (toLowerKey platform))) }

/-- The processes launched for a platform key that are still running. -/
def liveProcessesFor (s : PoolState) (key : String) : List Nat :=
  (s.launchedFor.filter (fun p => p.2 == key && s.live.contains p.1)).map
    (fun p => p.1)

/-- Number of pool entries for a key. -/
def countKey (pool : List (String × Nat)) (key : String) : Nat :=
  (pool.filter (fun kv => kv.1 == key)).length

/-- **C4 (counterexample).** Two acquisitions with `useExisting = false`
for the same platform leave *two* live browser processes for that key: the
first process is replaced in the pool but never closed, refuting "at most
one live browser process per platform key after every sequence of acquire
calls (including acquisitions with useExisting = false)". -/
theorem pool_two_live_processes_counterexample :
    (liveProcessesFor
        ((getBrowserForPlatform
            ((getBrowserForPlatform ⟨[], [], [], 0⟩ "linkedin" false).2)
            "linkedin" false).2) "linkedin").length = 2 ∧
    ¬ ((liveProcessesFor
        ((getBrowserForPlatform
            ((getBrowserForPlatform ⟨[], [], [], 0⟩ "linkedin" false).2)
            "linkedin" false).2) "linkedin").length ≤ 1) := by
  decide

lemma filter_key_of_filter_not_key (key : String) :
    ∀ pool : List (String × Nat),
      (pool.filter (fun kv => !(kv.1 == key))).filter (fun kv => kv.1 == key) = [] := by
  intro pool
  induction pool with
  | nil => rfl
  | cons kv rest ih =>
    cases h : kv.1 == key <;> simp [List.filter_cons, h, ih]

lemma lookup_filter_key_none (key : String) :
    ∀ pool : List (String × Nat),
      (pool.filter (fun kv => !(kv.1 == key))).lookup key = none := by
  intro pool
  induction pool with
  | nil => rfl
  | cons kv rest ih =>
    rcases kv with ⟨k, v⟩
    cases h : k == key with
    | true => simp [List.filter_cons, h, ih]
    | false =>
      have h' : (key == k) = false := by
        rw [beq_eq_false_iff_ne] at h ⊢
        exact fun e => h e.symm
      simp [List.filter_cons, h, List.lookup, h', ih]

lemma filter_poolSet_self (key : String) (id : Nat) (pool : List (String × Nat)) :
    (poolSet pool key id).filter (fun kv => kv.1 == key) = [(key, id)] := by
  unfold poolSet
  rw [List.filter_append, filter_key_of_filter_not_key]
  simp

lemma countKey_filter_le (f : String × Nat → Bool) (pool : List (String × Nat))
    (key' : String) : countKey (pool.filter f) key' ≤ countKey pool key' :=
  List.Sublist.length_le (List.Sublist.filter _ (List.filter_sublist pool))

lemma countKey_poolSet (pool : List (String × Nat)) (key key' : String) (id : Nat) :
    countKey (poolSet pool key id) key' ≤ max (countKey pool key') 1 := by
  unfold countKey poolSet
  rw [List.filter_append, List.length_append]
  by_cases h : key' = key
  · subst h
    rw [filter_key_of_filter_not_key]
    simp
  · have hbeq : (key == key') = false := by
      simp [BEq.beq]
      intro hcontra
      exact h hcontra.symm
    have h2 : List.filter (fun kv => kv.1 == key') [(key, id)] = [] := by
      simp [List.filter, hbeq]
    rw [h2]
    have := countKey_filter_le (fun kv => !(kv.1 == key)) pool key'
    unfold countKey at this
    simp only [List.length_nil, Nat.add_zero]
    omega

/-- **C4 (amended).** The pool map keeps at most one entry per platform
key; an acquire with reuse enabled finding a still-connected pooled
process returns that same process handle with the state unchanged; a
pooled but disconnected process is evicted and replaced by a freshly
launched one (the pool then holds exactly the new entry for that key);
after the disconnect handler has run for a key, the next reuse-enabled
acquire launches a new process.  However, an acquire with
`useExisting = false` always launches a new process and leaves every
previously live process — including any for the same key — running, so
more than one live process can exist per platform key. -/
theorem getBrowserForPlatform_pool_spec (s : PoolState) (platform : String) :
    (∀ b, s.pool.lookup (toLowerKey platform) = some b → s.live.contains b = true →
      getBrowserForPlatform s platform true = (b, s)) ∧
    (∀ b, s.pool.lookup (toLowerKey platform) = some b → s.live.contains b = false →
      (getBrowserForPlatform s platform true).1 = s.nextId ∧
      (getBrowserForPlatform s platform true).2.pool.filter
          (fun kv => kv.1 == (toLowerKey platform)) = [((toLowerKey platform), s.nextId)]) ∧
    ((getBrowserForPlatform s platform false).1 = s.nextId ∧
      (getBrowserForPlatform s platform false).2.live = s.nextId :: s.live ∧
      (getBrowserForPlatform s platform false).2.launchedFor =
        (s.nextId, (toLowerKey platform)) :: s.launchedFor) ∧
    (∀ u key', countKey ((getBrowserForPlatform s platform u).2.pool) key'
        ≤ max (countKey s.pool key') 1) ∧
    (∀ id, (getBrowserForPlatform (disconnectBrowser s platform id) platform true).1
        = s.nextId) := by
  refine ⟨?_, ?_, ?_, ?_, ?_⟩
  · intro b hl hc
    have hb : b ∈ s.live := by simpa using hc
    simp [getBrowserForPlatform, hl, hb]
  · intro b hl hc
    have hb : b ∉ s.live := by simpa using hc
    constructor
    · simp [getBrowserForPlatform, hl, hb, launchBrowser]
    · simp [getBrowserForPlatform, hl, hb, launchBrowser, filter_poolSet_self]
  · refine ⟨?_, ?_, ?_⟩ <;> simp [getBrowserForPlatform, launchBrowser]
  · intro u key'
    cases u with
    | false =>
      simp only [getBrowserForPlatform, Bool.false_eq_true, if_false, launchBrowser]
      exact countKey_poolSet s.pool (toLowerKey platform) key' s.nextId
    | true =>
      cases hl : s.pool.lookup (toLowerKey platform) with
      | none =>
        simp only [getBrowserForPlatform, if_true, hl, launchBrowser]
        exact countKey_poolSet s.pool (toLowerKey platform) key' s.nextId
      | some b =>
        cases hc : s.live.contains b with
        | true =>
          simp only [getBrowserForPlatform, if_true, hl, hc]
          exact le_max_left _ _
        | false =>
          simp only [getBrowserForPlatform, if_true, hl, hc, Bool.false_eq_true,
            if_false, launchBrowser]
          have h1 := countKey_poolSet
            (s.pool.filter (fun kv => !(kv.1 == (toLowerKey platform))))
            (toLowerKey platform) key' s.nextId
          have h2 := countKey_filter_le
            (fun kv => !(kv.1 == (toLowerKey platform))) s.pool key'
          omega
  · intro id
    have hl := lookup_filter_key_none (toLowerKey platform) s.pool
    simp [getBrowserForPlatform, disconnectBrowser, hl, launchBrowser]

/-- Witness for the amended C4: in a pool holding a connected process 5
for linkedin, a reuse-enabled acquire returns process 5 with the state
unchanged. -/
theorem getBrowserForPlatform_pool_spec_witness :
    getBrowserForPlatform ⟨[("linkedin", 5)], [5], [(5, "linkedin")], 6⟩
        "linkedin" true =
      (5, ⟨[("linkedin", 5)], [5], [(5, "linkedin")], 6⟩) :=
  (getBrowserForPlatform_pool_spec
      ⟨[("linkedin", 5)], [5], [(5, "linkedin")], 6⟩ "linkedin").1
    5 (by decide) (by decide)

end JobApi
